import Mathlib

/-!
Shallow embedding of the ledger subsystem of `abehnia/web` (Rust sources
`src/entity.rs`, `src/logic.rs`, `src/query.rs`), together with proofs of the
specification's claims about it.

Monetary amounts (`rust_decimal::Decimal`) are embedded as `ℚ`: the spec's
Monetary Amount is an exact signed decimal with no rounding on addition and
subtraction, and every operation the claims touch is addition, subtraction,
negation or comparison, all of which `ℚ` models exactly.  Calendar dates
(`chrono::NaiveDate`) are a year/month/day record.  UUIDs are embedded as
`Nat`: identity generation (`Uuid::new_v4`) is nondeterministic in the source,
so the generated identifier is taken as an explicit argument.
-/

namespace Web

/-- Embedding of `chrono::NaiveDate` as far as the ledger uses it: a
year/month/day triple. -/
structure Date where
  year : Nat
  month : Nat
  day : Nat
deriving DecidableEq, Repr

/-- Embedding of `error::Error` (src/error.rs).  `QueryError` and
`QueryErrorBuilding` wrap storage-layer faults; errors carry no payload the
claims inspect. -/
inductive Error where
  | QueryError
  | QueryErrorBuilding
  | InvalidCSVIncome
deriving DecidableEq, Repr

/-- Embedding of `entity::Transaction` (src/entity.rs): one signed monetary
movement.  `memo` is kept as a character list so that all operations reduce
by evaluation. -/
structure Transaction where
  date : Date
  amount : ℚ
  memo : List Char
deriving DecidableEq, Repr

/-- Embedding of `entity::TransactionFromCSV` (src/entity.rs): the raw
deserialized CSV row, before label interpretation. -/
structure TransactionFromCSV where
  date : Date
  income : List Char
  amount : ℚ
  memo : List Char
deriving DecidableEq, Repr

/-- Embedding of `entity::Report` (src/entity.rs). -/
structure Report where
  gross_revenue : ℚ
  expenses : ℚ
  net_revenue : ℚ
deriving DecidableEq, Repr

/-- Embedding of `entity::WithId<T>` (src/entity.rs). -/
structure WithId (T : Type) where
  id : Nat
  data : T
deriving DecidableEq, Repr

/-- Embedding of `WithId::from_data` (src/entity.rs lines 21-26).  The source
generates the identifier with `Uuid::new_v4()`; the generated identifier is
passed explicitly here and the `data` field is stored unchanged. -/
def WithId.from_data {T : Type} (id : Nat) (data : T) : WithId T :=
  { id := id, data := data }

/-- Embedding of `Report::new` (src/entity.rs lines 117-123): the zero
report. -/
def Report.new : Report :=
  { gross_revenue := 0, expenses := 0, net_revenue := 0 }

/-- Embedding of `Report::add_transaction` (src/entity.rs lines 104-114):
if `transaction.amount > 0` the amount is added to `gross_revenue`, otherwise
it is subtracted from `expenses`; `net_revenue` gains the amount in both
branches. -/
def Report.add_transaction (report : Report) (transaction : Transaction) : Report :=
  let r := report
  let r := if transaction.amount > 0 then
    { r with gross_revenue := r.gross_revenue + transaction.amount }
  else
    { r with expenses := r.expenses - transaction.amount }
  { r with net_revenue := r.net_revenue + transaction.amount }

/-- Embedding of `Report::add` (src/entity.rs lines 125-132): component-wise
addition. -/
def Report.add (lhs : Report) (rhs : Report) : Report :=
  { gross_revenue := lhs.gross_revenue + rhs.gross_revenue
    expenses := lhs.expenses + rhs.expenses
    net_revenue := lhs.net_revenue + rhs.net_revenue }

/-- The label token `"Income"` (src/entity.rs line 160). -/
def incomeLabel : List Char := "Income".data

/-- The label token `"Expense"` (src/entity.rs line 161). -/
def expenseLabel : List Char := "Expense".data

/-- Embedding of `impl TryFrom<TransactionFromCSV> for Transaction`
(src/entity.rs lines 156-178): the label is compared case-sensitively against
exactly `"Income"` and `"Expense"`; an Income row keeps the parsed amount, an
Expense row negates it, anything else is `InvalidCSVIncome`. -/
def Transaction.try_from (value : TransactionFromCSV) : Except Error Transaction :=
  if value.income = incomeLabel then
    .ok { date := value.date, amount := value.amount, memo := value.memo }
  else if value.income = expenseLabel then
    .ok { date := value.date, amount := -value.amount, memo := value.memo }
  else
    .error .InvalidCSVIncome

/-- Embedding of `Model::calculate_balance_from_transactions`
(src/logic.rs lines 13-21): left fold of `Report.add_transaction` starting
from the zero report. -/
def Model.calculate_balance_from_transactions (transactions : List Transaction) : Report :=
  transactions.foldl Report.add_transaction Report.new

/-- Embedding of `Model::calculate_total_report` (src/logic.rs lines 23-29):
left fold of `Report.add` starting from the zero report. -/
def Model.calculate_total_report (reports : List Report) : Report :=
  reports.foldl Report.add Report.new

/-! ### The CSV decoder

`CSVReader::read_transaction_from_csv_bytes` (src/logic.rs lines 58-84) builds
a `csv_async` reader (trim all fields, comment marker `#`, no header row,
flexible record length), deserializes each record into `TransactionFromCSV`,
drops records whose structural parse failed (first `filter_map`), converts the
survivors with `TryFrom` and drops conversion failures (second `filter_map`).
The two `filter_map` stages are embedded from the source; the record-level
parsing they consume lives in the external `csv_async`/`serde`/`chrono`/
`rust_decimal` crates and is modelled from the spec below. -/

/-- Modelled from the spec: whitespace trimmed by the CSV reader's
`Trim::All` setting (spec 4.2 step 1, "trim whitespace around fields"). -/
def isCsvSpace (c : Char) : Bool :=
  c = ' ' || c = '\t' || c = '\r'

/-- Split a character list at every occurrence of the separator `c`. -/
def splitOnChar (c : Char) : List Char → List (List Char)
  | [] => [[]]
  | x :: xs =>
    let rest := splitOnChar c xs
    if x = c then [] :: rest
    else match rest with
      | [] => [[x]]
      | r :: rs => (x :: r) :: rs

/-- Trim `isCsvSpace` characters from both ends of a field. -/
def trimField (l : List Char) : List Char :=
  ((l.dropWhile isCsvSpace).reverse.dropWhile isCsvSpace).reverse

/-- Parse a nonempty all-digit character list as a natural number. -/
def parseNatDigits (l : List Char) : Option Nat :=
  if l ≠ [] ∧ l.all (·.isDigit) then
    some (l.foldl (fun acc c => 10 * acc + (c.toNat - '0'.toNat)) 0)
  else none

/-- Gregorian leap-year test, as `chrono` uses for date validity. -/
def isLeapYear (y : Nat) : Bool :=
  (y % 4 = 0 && y % 100 ≠ 0) || y % 400 = 0

/-- Days in a month of a given year. -/
def daysInMonth (y m : Nat) : Nat :=
  if m = 2 then (if isLeapYear y then 29 else 28)
  else if m = 4 ∨ m = 6 ∨ m = 9 ∨ m = 11 then 30
  else 31

/-- Modelled from the spec: the structural date parse performed by
`chrono::NaiveDate`'s `Deserialize` (ISO `year-month-day`, the date must be a
real calendar date — so `20-08-2023` is rejected, day 2023 being invalid). -/
def parseDate (l : List Char) : Option Date :=
  match (splitOnChar '-' l).map parseNatDigits with
  | [some y, some m, some d] =>
    if 1 ≤ m ∧ m ≤ 12 ∧ 1 ≤ d ∧ d ≤ daysInMonth y m then
      some { year := y, month := m, day := d }
    else none
  | _ => none

/-- Modelled from the spec: the structural decimal parse performed by
`rust_decimal::Decimal`'s `Deserialize` — an optional sign, then digits with
at most one decimal point and at least one digit in total; exact value, no
rounding (spec 4.1). -/
def parseDecimal (l : List Char) : Option ℚ :=
  let (sign, body) : ℚ × List Char :=
    match l with
    | '-' :: rest => (-1, rest)
    | '+' :: rest => (1, rest)
    | _ => (1, l)
  match splitOnChar '.' body with
  | [intPart] =>
    (parseNatDigits intPart).map fun n => sign * (n : ℚ)
  | [intPart, fracPart] =>
    if (intPart ≠ [] ∨ fracPart ≠ []) ∧
        intPart.all (·.isDigit) ∧ fracPart.all (·.isDigit) then
      let n := (intPart ++ fracPart).foldl
        (fun acc c => 10 * acc + (c.toNat - '0'.toNat)) 0
      some (sign * (n : ℚ) / ((10 : ℚ) ^ fracPart.length))
    else none
  | _ => none

/-- Modelled from the spec: one record of the CSV reader configured in
`CSVReader::read_transaction_from_csv_bytes` — empty lines are skipped, lines
beginning with `#` are comments (spec 4.2 step 1), fields are split on commas
and trimmed, and a record deserializes into `TransactionFromCSV` when it has
at least the four columns `(date, label, amount, memo)` (flexible trailing
columns, spec 4.2 step 1) with a well-formed date and amount. -/
def decodeLine (line : List Char) : Option TransactionFromCSV :=
  if line = [] then none
  else if line.head? = some '#' then none
  else
    match (splitOnChar ',' line).map trimField with
    | date :: income :: amount :: memo :: _ =>
      match parseDate date, parseDecimal amount with
      | some d, some a =>
        some { date := d, income := income, amount := a, memo := memo }
      | _, _ => none
    | _ => none

/-- The full per-row pipeline: structural parse, then label interpretation
(`TryFrom`), each failure dropping the row. -/
def decodeRow (line : List Char) : Option Transaction :=
  (decodeLine line).bind fun r => (Transaction.try_from r).toOption

/-- A row is well-formed when the whole pipeline yields a movement for it. -/
def wellFormedRow (line : List Char) : Bool :=
  (decodeRow line).isSome

/-- Embedding of the two `filter_map` stages of
`CSVReader::read_transaction_from_csv_bytes` (src/logic.rs lines 69-83), over
the list of records: drop rows whose structural parse failed, convert the
rest with `Transaction.try_from`, drop conversion failures. -/
def CSVReader.read_transaction_from_rows (rows : List (List Char)) : List Transaction :=
  (rows.filterMap decodeLine).filterMap fun x => (Transaction.try_from x).toOption

/-- Split the input into newline-terminated records. -/
def splitRecords (input : List Char) : List (List Char) :=
  splitOnChar '\n' input

/-- Embedding of `CSVReader::read_transaction_from_csv_bytes`
(src/logic.rs lines 58-84) on a whole byte buffer. -/
def CSVReader.read_transaction_from_csv_bytes (input : List Char) : List Transaction :=
  CSVReader.read_transaction_from_rows (splitRecords input)

/-! ### The ledger store

`SqliteStore` (src/query.rs) wraps one open SQLite transaction.  The SQL layer
itself (`sqlx`/`sea_query`/SQLite) is an external collaborator; its
transactional semantics — writes are pending until `commit`, and a handle
dropped without commit discards them (rollback-on-drop) — are modelled from
the spec (spec 4.4, 3 "Ledger Transaction").  The row contents written by
each operation are embedded from the `Query::insert` calls in src/query.rs. -/

/-- A row of the `transactions` table, columns `(id, date, amount, memo)` as
bound in `SqliteStore::create_transactions` (src/query.rs lines 110-115). -/
structure TransactionRow where
  id : Nat
  date : Date
  amount : ℚ
  memo : List Char
deriving DecidableEq, Repr

/-- A row of the `report` table, columns `(id, gross_revenue, expenses)` as
bound in `SqliteStore::create_report` (src/query.rs lines 59-64);
`net_revenue` is not stored. -/
structure ReportRow where
  id : Nat
  gross_revenue : ℚ
  expenses : ℚ
deriving DecidableEq, Repr

/-- The committed contents of the store: the two append-only tables. -/
structure StoreState where
  transactions : List TransactionRow
  reports : List ReportRow
deriving DecidableEq, Repr

/-- Modelled from the spec: an open SQLite transaction (`sqlx::Transaction`
inside `SqliteStore`, src/query.rs lines 29-31) — the committed base state
plus the writes pending in this transaction, invisible to other transactions
until `commit`. -/
structure SqliteStore where
  base : StoreState
  pendingTransactions : List TransactionRow
  pendingReports : List ReportRow
deriving DecidableEq, Repr

/-- Which storage operations fail, for fault injection (spec 8,
"a simulated storage fault"). -/
structure FaultModel where
  createTransactionsFault : Bool
  createReportFault : Bool
  commitFault : Bool
deriving DecidableEq, Repr

/-- The fault-free storage layer. -/
def FaultModel.none : FaultModel :=
  { createTransactionsFault := false, createReportFault := false, commitFault := false }

/-- Embedding of `SqliteStore::from_sqlite_transaction` (src/query.rs lines
35-37): a fresh handle over the committed state, with no pending writes. -/
def SqliteStore.from_sqlite_transaction (base : StoreState) : SqliteStore :=
  { base := base, pendingTransactions := [], pendingReports := [] }

/-- The `transactions`-table row written for one identified movement by
`SqliteStore::create_transactions` (src/query.rs lines 107-116): the
generated id plus the movement's own `date`, `amount` and `memo`. -/
def transactionRowOf (w : WithId Transaction) : TransactionRow :=
  { id := w.id, date := w.data.date, amount := w.data.amount, memo := w.data.memo }

/-- The `report`-table row written by `SqliteStore::create_report`
(src/query.rs lines 57-64): the generated id plus the report's
`gross_revenue` and `expenses`. -/
def reportRowOf (w : WithId Report) : ReportRow :=
  { id := w.id, gross_revenue := w.data.gross_revenue, expenses := w.data.expenses }

/-- Embedding of `SqliteStore::create_transactions` (src/query.rs lines
94-126): one multi-row insert of all the given movements, failing atomically
on a storage fault. -/
def SqliteStore.create_transactions (f : FaultModel) (s : SqliteStore)
    (rows : List (WithId Transaction)) : Except Error SqliteStore :=
  if f.createTransactionsFault then .error .QueryError
  else .ok { s with
    pendingTransactions := s.pendingTransactions ++ rows.map transactionRowOf }

/-- Embedding of `SqliteStore::create_report` (src/query.rs lines 52-72):
insert one report fragment row, failing on a storage fault. -/
def SqliteStore.create_report (f : FaultModel) (s : SqliteStore)
    (w : WithId Report) : Except Error SqliteStore :=
  if f.createReportFault then .error .QueryError
  else .ok { s with pendingReports := s.pendingReports ++ [reportRowOf w] }

/-- Embedding of `SqliteStore::commit` (src/query.rs lines 130-132), with the
transactional semantics modelled from the spec: commit consumes the handle
and makes the pending writes part of the committed state. -/
def SqliteStore.commit (f : FaultModel) (s : SqliteStore) : Except Error StoreState :=
  if f.commitFault then .error .QueryError
  else .ok
    { transactions := s.base.transactions ++ s.pendingTransactions
      reports := s.base.reports ++ s.pendingReports }

/-- Embedding of `SqliteStore::get_reports` (src/query.rs lines 40-49)
composed with `Report`'s `FromRow` (src/entity.rs lines 80-101), as a
subsequent Query sees the store: each committed fragment row read back with
`net_revenue` derived as `gross_revenue - expenses`. -/
def StoreState.get_reports (s : StoreState) : List Report :=
  s.reports.map fun row =>
    { gross_revenue := row.gross_revenue
      expenses := row.expenses
      net_revenue := row.gross_revenue - row.expenses }

/-- Embedding of `Model::commit_transactions` (src/logic.rs lines 33-52):
fold the batch into a report, stamp the report and every movement with a
generated identity, insert the movements, insert the report fragment, commit;
each `?` propagates a storage fault.  Identifier generation is made explicit:
`reportId` and `transactionIds` stand for the `Uuid::new_v4` values. -/
def Model.commit_transactions (f : FaultModel) (transactions : List Transaction)
    (reportId : Nat) (transactionIds : List Nat) (sqlite_store : SqliteStore) :
    Except Error (Report × StoreState) :=
  let report := Model.calculate_balance_from_transactions transactions
  let report_with_id := WithId.from_data reportId report
  match sqlite_store.create_transactions f
      ((transactionIds.zip transactions).map fun p => WithId.from_data p.1 p.2) with
  | .error e => .error e
  | .ok s =>
    match s.create_report f report_with_id with
    | .error e => .error e
    | .ok s =>
      match s.commit f with
      | .error e => .error e
      | .ok final => .ok (report, final)

/-- Modelled from the spec: the committed store contents after an ingest over
base state `base` — on success the committed result, on any failure the
transaction handle is dropped without commit and all its writes are discarded
(rollback-on-drop, spec 4.4), leaving the base state. -/
def Model.ingest (f : FaultModel) (base : StoreState) (transactions : List Transaction)
    (reportId : Nat) (transactionIds : List Nat) : StoreState :=
  match Model.commit_transactions f transactions reportId transactionIds
      (SqliteStore.from_sqlite_transaction base) with
  | .ok r => r.2
  | .error _ => base

/-- The reports reachable from the zero report by `Report.add_transaction`
and `Report.add` steps — the reachable states of the Report Aggregator. -/
inductive Report.Reachable : Report → Prop where
  | zero : Report.Reachable Report.new
  | step (r : Report) (t : Transaction) :
      Report.Reachable r → Report.Reachable (Report.add_transaction r t)
  | merge (a b : Report) :
      Report.Reachable a → Report.Reachable b → Report.Reachable (Report.add a b)

/-! ### Helper lemmas -/

theorem Report.eq_of_fields {a b : Report}
    (h1 : a.gross_revenue = b.gross_revenue) (h2 : a.expenses = b.expenses)
    (h3 : a.net_revenue = b.net_revenue) : a = b := by
  cases a; cases b; simp_all

theorem Report.add_transaction_gross (r : Report) (t : Transaction) :
    (Report.add_transaction r t).gross_revenue =
      r.gross_revenue + (if 0 < t.amount then t.amount else 0) := by
  simp only [Report.add_transaction]
  split <;> simp

theorem Report.add_transaction_expenses (r : Report) (t : Transaction) :
    (Report.add_transaction r t).expenses =
      r.expenses + (if 0 < t.amount then 0 else -t.amount) := by
  simp only [Report.add_transaction]
  split <;> simp [sub_eq_add_neg]

theorem Report.add_transaction_net (r : Report) (t : Transaction) :
    (Report.add_transaction r t).net_revenue = r.net_revenue + t.amount := by
  simp only [Report.add_transaction]
  split <;> simp

theorem Report.add_gross (a b : Report) :
    (Report.add a b).gross_revenue = a.gross_revenue + b.gross_revenue := rfl

theorem Report.add_expenses (a b : Report) :
    (Report.add a b).expenses = a.expenses + b.expenses := rfl

theorem Report.add_net (a b : Report) :
    (Report.add a b).net_revenue = a.net_revenue + b.net_revenue := rfl

theorem Report.add_assoc (a b c : Report) :
    Report.add (Report.add a b) c = Report.add a (Report.add b c) := by
  apply Report.eq_of_fields <;>
    simp only [Report.add_gross, Report.add_expenses, Report.add_net] <;> ring

theorem Report.add_comm (a b : Report) :
    Report.add a b = Report.add b a := by
  apply Report.eq_of_fields <;>
    simp only [Report.add_gross, Report.add_expenses, Report.add_net] <;> ring

theorem Report.add_new_left (r : Report) : Report.add Report.new r = r := by
  apply Report.eq_of_fields <;>
    simp [Report.add_gross, Report.add_expenses, Report.add_net, Report.new]

theorem Report.add_new_right (r : Report) : Report.add r Report.new = r := by
  apply Report.eq_of_fields <;>
    simp [Report.add_gross, Report.add_expenses, Report.add_net, Report.new]

/-- `Report.add_transaction` applies a movement as a componentwise delta: it
equals merging the single-movement report into the accumulator. -/
theorem Report.add_transaction_eq_add (r : Report) (t : Transaction) :
    Report.add_transaction r t =
      Report.add r (Report.add_transaction Report.new t) := by
  apply Report.eq_of_fields <;>
    simp [Report.add_transaction_gross, Report.add_transaction_expenses,
      Report.add_transaction_net, Report.add_gross, Report.add_expenses,
      Report.add_net, Report.new, add_comm]

theorem foldl_add_transaction_eq_add (l : List Transaction) (r : Report) :
    l.foldl Report.add_transaction r =
      Report.add r (l.foldl Report.add_transaction Report.new) := by
  induction l generalizing r with
  | nil => simp [Report.add_new_right]
  | cons x xs ih =>
    simp only [List.foldl_cons]
    rw [ih (Report.add_transaction r x), ih (Report.add_transaction Report.new x),
      Report.add_transaction_eq_add r x, Report.add_assoc]

theorem filterMap_filter_isSome {α β : Type} (g : α → Option β) (l : List α) :
    (l.filter fun x => (g x).isSome).filterMap g = l.filterMap g := by
  induction l with
  | nil => rfl
  | cons x xs ih => cases hg : g x <;>
      simp [List.filter_cons, List.filterMap_cons, hg, ih]

theorem length_filterMap_eq_length_filter {α β : Type} (g : α → Option β) (l : List α) :
    (l.filterMap g).length = (l.filter fun x => (g x).isSome).length := by
  induction l with
  | nil => rfl
  | cons x xs ih => cases hg : g x <;>
      simp [List.filter_cons, List.filterMap_cons, hg, ih]

/-- The two `filter_map` stages of the decoder compose into the single
per-row pipeline `decodeRow`. -/
theorem read_transaction_from_rows_eq_filterMap (rows : List (List Char)) :
    CSVReader.read_transaction_from_rows rows = rows.filterMap decodeRow := by
  induction rows with
  | nil => rfl
  | cons x xs ih =>
    simp only [CSVReader.read_transaction_from_rows] at ih ⊢
    cases hx : decodeLine x with
    | none =>
      have hrow : decodeRow x = none := by simp [decodeRow, hx]
      simp [List.filterMap_cons, hx, hrow, ih]
    | some r =>
      have hrow : decodeRow x = (Transaction.try_from r).toOption := by
        simp [decodeRow, hx]
      cases hr : (Transaction.try_from r).toOption <;>
        simp [List.filterMap_cons, hx, hrow, hr, ih]

/-! ### The claims -/

/-- C1: every Report reachable from the zero Report by any sequence of
`Report.add_transaction` and `Report.add` steps satisfies
`net_revenue = gross_revenue - expenses` exactly. -/
theorem report_net_invariant_reachable (r : Report) (h : Report.Reachable r) :
    r.net_revenue = r.gross_revenue - r.expenses := by
  induction h with
  | zero => simp [Report.new]
  | step r t _ ih =>
    rw [Report.add_transaction_net, Report.add_transaction_gross,
      Report.add_transaction_expenses, ih]
    split <;> ring
  | merge a b _ _ iha ihb =>
    rw [Report.add_net, Report.add_gross, Report.add_expenses, iha, ihb]
    ring

/-- C1 witness: the invariant at a concrete reachable report, obtained by one
income and one expense movement followed by a merge with the zero report. -/
theorem report_net_invariant_reachable_witness :
    (Report.add
      (Report.add_transaction
        (Report.add_transaction Report.new
          ⟨⟨2021, 7, 12⟩, (8732 : ℚ)/100, []⟩)
        ⟨⟨2023, 8, 20⟩, -(1213 : ℚ)/100, []⟩)
      Report.new).net_revenue =
    (Report.add
      (Report.add_transaction
        (Report.add_transaction Report.new
          ⟨⟨2021, 7, 12⟩, (8732 : ℚ)/100, []⟩)
        ⟨⟨2023, 8, 20⟩, -(1213 : ℚ)/100, []⟩)
      Report.new).gross_revenue -
    (Report.add
      (Report.add_transaction
        (Report.add_transaction Report.new
          ⟨⟨2021, 7, 12⟩, (8732 : ℚ)/100, []⟩)
        ⟨⟨2023, 8, 20⟩, -(1213 : ℚ)/100, []⟩)
      Report.new).expenses :=
  report_net_invariant_reachable _
    (.merge _ _ (.step _ _ (.step _ _ .zero)) .zero)

/-- C2: if the storage layer faults on `insert_report_fragment` during an
ingest, `Model.commit_transactions` returns an error (commit is never
reached), and the store visible to any subsequent Query is exactly the base
state: no movement of the batch and no report fragment survives. -/
theorem ingest_report_fault_atomic (f : FaultModel) (base : StoreState)
    (ts : List Transaction) (rid : Nat) (tids : List Nat)
    (hf : f.createReportFault = true) :
    (∃ e, Model.commit_transactions f ts rid tids
        (SqliteStore.from_sqlite_transaction base) = .error e) ∧
    Model.ingest f base ts rid tids = base ∧
    (Model.ingest f base ts rid tids).get_reports = base.get_reports := by
  have herr : Model.commit_transactions f ts rid tids
      (SqliteStore.from_sqlite_transaction base) = .error .QueryError := by
    unfold Model.commit_transactions SqliteStore.create_transactions
      SqliteStore.create_report
    cases hct : f.createTransactionsFault <;> simp [hf, hct]
  refine ⟨⟨.QueryError, herr⟩, ?_, ?_⟩ <;> simp [Model.ingest, herr]

/-- C2 witness: a concrete one-movement batch against an empty store with a
fault injected at the report-fragment insert. -/
theorem ingest_report_fault_atomic_witness :
    (∃ e, Model.commit_transactions ⟨false, true, false⟩
        [⟨⟨2021, 7, 12⟩, (8732 : ℚ)/100, []⟩] 0 [1]
        (SqliteStore.from_sqlite_transaction ⟨[], []⟩) = .error e) ∧
    Model.ingest ⟨false, true, false⟩ ⟨[], []⟩
        [⟨⟨2021, 7, 12⟩, (8732 : ℚ)/100, []⟩] 0 [1] = ⟨[], []⟩ ∧
    (Model.ingest ⟨false, true, false⟩ ⟨[], []⟩
        [⟨⟨2021, 7, 12⟩, (8732 : ℚ)/100, []⟩] 0 [1]).get_reports =
      StoreState.get_reports ⟨[], []⟩ :=
  ingest_report_fault_atomic _ _ _ _ _ rfl

/-- C3: for every list of CSV records, the decoder yields exactly the
movements of the well-formed rows in their original relative order — the
output equals the decode of the well-formed rows alone and has one movement
per well-formed row, for every number and placement of malformed rows,
invalid-label rows and comment lines. -/
theorem decoder_fault_tolerant (rows goods : List (List Char))
    (h : goods = rows.filter wellFormedRow) :
    CSVReader.read_transaction_from_rows rows =
      CSVReader.read_transaction_from_rows goods ∧
    (CSVReader.read_transaction_from_rows rows).length = goods.length := by
  subst h
  have hfilter : rows.filter wellFormedRow =
      rows.filter fun x => (decodeRow x).isSome := rfl
  constructor
  · rw [read_transaction_from_rows_eq_filterMap,
      read_transaction_from_rows_eq_filterMap, hfilter, filterMap_filter_isSome]
  · rw [read_transaction_from_rows_eq_filterMap, hfilter,
      length_filterMap_eq_length_filter]

/-- C3 witness: the spec's concrete scenario 2 — seven rows of which exactly
two are well-formed, in order. -/
theorem decoder_fault_tolerant_witness :
    ["2021-07-12, Income, 87.32, first".data,
     "2023-08-20, Expense, 12.13, second".data] =
      (["text".data, "# comment".data, "2020-09-12, Income".data,
        "2021-07-12, Income, 87.32, first".data,
        "2023-08-13, NotExpense, 10.12, third".data,
        "2023-08-20, Expense, 12.13, second".data,
        "20-08-2023, Income, 10.00, fourth".data].filter wellFormedRow) ∧
    (CSVReader.read_transaction_from_rows
        ["text".data, "# comment".data, "2020-09-12, Income".data,
         "2021-07-12, Income, 87.32, first".data,
         "2023-08-13, NotExpense, 10.12, third".data,
         "2023-08-20, Expense, 12.13, second".data,
         "20-08-2023, Income, 10.00, fourth".data] =
      CSVReader.read_transaction_from_rows
        ["2021-07-12, Income, 87.32, first".data,
         "2023-08-20, Expense, 12.13, second".data] ∧
    (CSVReader.read_transaction_from_rows
        ["text".data, "# comment".data, "2020-09-12, Income".data,
         "2021-07-12, Income, 87.32, first".data,
         "2023-08-13, NotExpense, 10.12, third".data,
         "2023-08-20, Expense, 12.13, second".data,
         "20-08-2023, Income, 10.00, fourth".data]).length =
      ["2021-07-12, Income, 87.32, first".data,
       "2023-08-20, Expense, 12.13, second".data].length) :=
  ⟨by decide, decoder_fault_tolerant _ _ (by decide)⟩

/-- C4: folding a whole batch with `Report.add_transaction` from the zero
report equals merging the folds of any prefix and suffix computed
separately. -/
theorem balance_batch_split_invariance (part1 part2 : List Transaction) :
    Model.calculate_balance_from_transactions (part1 ++ part2) =
      Report.add (Model.calculate_balance_from_transactions part1)
        (Model.calculate_balance_from_transactions part2) := by
  unfold Model.calculate_balance_from_transactions
  rw [List.foldl_append, foldl_add_transaction_eq_add]

/-- C5: an ingest over an empty movement batch does not fail: with a
fault-free store, `Model.commit_transactions` inserts an all-zero report
fragment, writes no movement row, and commits successfully. -/
theorem ingest_empty_batch_succeeds (base : StoreState) (rid : Nat) :
    Model.commit_transactions FaultModel.none [] rid []
        (SqliteStore.from_sqlite_transaction base) =
      .ok (Report.new,
        { transactions := base.transactions
          reports := base.reports ++ [{ id := rid, gross_revenue := 0, expenses := 0 }] }) := by
  simp [Model.commit_transactions, Model.calculate_balance_from_transactions,
    SqliteStore.create_transactions, SqliteStore.create_report,
    SqliteStore.commit, SqliteStore.from_sqlite_transaction, FaultModel.none,
    WithId.from_data, reportRowOf, Report.new]

/-- C6: the label of a parseable row is compared case-sensitively against
exactly `"Income"` and `"Expense"`: an Income row keeps the parsed amount
unchanged (even if negative), an Expense row negates it, and any other label
fails with `InvalidCSVIncome`, which drops the row from the pipeline. -/
theorem try_from_label_cases (v : TransactionFromCSV) :
    (v.income = incomeLabel →
      Transaction.try_from v =
        .ok { date := v.date, amount := v.amount, memo := v.memo }) ∧
    (v.income = expenseLabel →
      Transaction.try_from v =
        .ok { date := v.date, amount := -v.amount, memo := v.memo }) ∧
    (v.income ≠ incomeLabel → v.income ≠ expenseLabel →
      Transaction.try_from v = .error .InvalidCSVIncome) := by
  refine ⟨fun h => ?_, fun h => ?_, fun h1 h2 => ?_⟩
  · simp only [Transaction.try_from]
    rw [if_pos h]
  · have hni : v.income ≠ incomeLabel := by
      rw [h]; decide
    simp only [Transaction.try_from]
    rw [if_neg hni, if_pos h]
  · simp only [Transaction.try_from]
    rw [if_neg h1, if_neg h2]

/-- C6 witness: a negative-amount Income row is honored as-is, an Expense row
is negated, and the case variant `"income"` is rejected. -/
theorem try_from_label_cases_witness :
    Transaction.try_from ⟨⟨2021, 7, 12⟩, "Income".data, -(5 : ℚ), []⟩ =
      .ok ⟨⟨2021, 7, 12⟩, -(5 : ℚ), []⟩ ∧
    Transaction.try_from ⟨⟨2021, 7, 12⟩, "Expense".data, (3 : ℚ), []⟩ =
      .ok ⟨⟨2021, 7, 12⟩, -(3 : ℚ), []⟩ ∧
    Transaction.try_from ⟨⟨2021, 7, 12⟩, "income".data, (3 : ℚ), []⟩ =
      .error .InvalidCSVIncome :=
  ⟨(try_from_label_cases _).1 rfl,
   (try_from_label_cases _).2.1 rfl,
   (try_from_label_cases _).2.2 (by decide) (by decide)⟩

/-- C7: `Report.add` is associative and commutative under exact decimal
arithmetic. -/
theorem report_add_assoc_comm (a b c : Report) :
    Report.add (Report.add a b) c = Report.add a (Report.add b c) ∧
    Report.add a b = Report.add b a :=
  ⟨Report.add_assoc a b c, Report.add_comm a b⟩

/-- C8: applying a movement with amount exactly zero returns a report equal
to the input: all three fields are unchanged. -/
theorem add_transaction_zero_amount (r : Report) (t : Transaction)
    (h : t.amount = 0) : Report.add_transaction r t = r := by
  apply Report.eq_of_fields
  · rw [Report.add_transaction_gross, h]; simp
  · rw [Report.add_transaction_expenses, h]; simp
  · rw [Report.add_transaction_net, h]; simp

/-- C8 witness: a concrete zero-amount movement on a concrete report. -/
theorem add_transaction_zero_amount_witness :
    Report.add_transaction ⟨(87 : ℚ), (12 : ℚ), (75 : ℚ)⟩
      ⟨⟨2021, 7, 12⟩, 0, []⟩ = ⟨(87 : ℚ), (12 : ℚ), (75 : ℚ)⟩ :=
  add_transaction_zero_amount _ _ rfl

/-- C9: every Report reachable from the zero Report by `add_transaction` and
`add` steps — with movement amounts of arbitrary sign — has non-negative
`gross_revenue` and non-negative `expenses`. -/
theorem report_nonneg_reachable (r : Report) (h : Report.Reachable r) :
    0 ≤ r.gross_revenue ∧ 0 ≤ r.expenses := by
  induction h with
  | zero => simp [Report.new]
  | step r t _ ih =>
    obtain ⟨h1, h2⟩ := ih
    constructor
    · rw [Report.add_transaction_gross]
      split <;> rename_i hc
      · linarith
      · linarith
    · rw [Report.add_transaction_expenses]
      split <;> rename_i hc
      · linarith
      · push_neg at hc; linarith
  | merge a b _ _ iha ihb =>
    obtain ⟨ha1, ha2⟩ := iha
    obtain ⟨hb1, hb2⟩ := ihb
    rw [Report.add_gross, Report.add_expenses]
    constructor <;> linarith

/-- C9 witness: a negative amount on a movement (as a negative-amount Income
row produces) keeps both accumulators non-negative. -/
theorem report_nonneg_reachable_witness :
    0 ≤ (Report.add_transaction Report.new
      ⟨⟨2021, 7, 12⟩, -(5 : ℚ), []⟩).gross_revenue ∧
    0 ≤ (Report.add_transaction Report.new
      ⟨⟨2021, 7, 12⟩, -(5 : ℚ), []⟩).expenses :=
  report_nonneg_reachable _ (.step _ _ .zero)

/-- C10: `WithId.from_data` stores the wrapped value unchanged — for any
payload the `data` field equals the input — and the rows persisted for a
stamped movement or report are computed from exactly that unchanged value
plus the generated id. -/
theorem from_data_preserves_data {T : Type} (i : Nat) (d : T)
    (r : Report) (t : Transaction) :
    (WithId.from_data i d).data = d ∧
    reportRowOf (WithId.from_data i r) =
      { id := i, gross_revenue := r.gross_revenue, expenses := r.expenses } ∧
    transactionRowOf (WithId.from_data i t) =
      { id := i, date := t.date, amount := t.amount, memo := t.memo } :=
  ⟨rfl, rfl, rfl⟩

end Web
